import Mathlib

/-!
Verification development for the RenderEase repository.

The repository is an interior-design visualization tool: a vanilla
JavaScript client (app.js), a React frontend (frontend/src), and a Flask
backend exposing the computer-vision core (segmentation, homography
warping, mask refinement, compositing).  The backend Python modules
(backend/app.py, backend/cv_algorithms) are referenced by the docs and
the frontend but are not part of the available sources; definitions that
embed them are modelled from the specification and say so in their doc
comments.  Everything else is translated directly from the JavaScript
sources.

Conventions: machine pixel channels are modelled as Int with explicit
clamping to [0, 255]; continuous quantities (coordinates, opacity,
colors used by the segmenter, homography entries) are modelled as Rat.
Masks and images are total functions on Fin h x Fin w.
-/

namespace RenderEase

/-! ### Brightness adjustment (src/app.js, applyTexture lines 426-435 and
adjustBrightness lines 164-170)

The JavaScript loop is
`data[i] = Math.max(0, Math.min(255, data[i] + brightness))` applied to
the three color channels of every RGBA pixel (the alpha channel i+3 is
left alone), and the whole adjustment runs only when `brightness !== 0`. -/

/-- One channel of the brightness adjustment:
`Math.max(0, Math.min(255, v + amount))`. -/
def adjustChannel (v amount : Int) : Int :=
  max 0 (min 255 (v + amount))

/-- An RGBA pixel as stored in a canvas ImageData buffer. -/
structure RGBA where
  r : Int
  g : Int
  b : Int
  a : Int
deriving DecidableEq, Repr

/-- A pixel channel set is in the valid byte range. -/
def pixelInRange (p : RGBA) : Prop :=
  0 ≤ p.r ∧ p.r ≤ 255 ∧ 0 ≤ p.g ∧ p.g ≤ 255 ∧
  0 ≤ p.b ∧ p.b ≤ 255 ∧ 0 ≤ p.a ∧ p.a ≤ 255

instance (p : RGBA) : Decidable (pixelInRange p) := by
  unfold pixelInRange; infer_instance

/-- Brightness adjustment of one RGBA pixel: the three color channels are
clamped-shifted, the alpha channel is untouched (src/app.js skips i+3). -/
def adjustPixel (p : RGBA) (amount : Int) : RGBA :=
  ⟨adjustChannel p.r amount, adjustChannel p.g amount,
   adjustChannel p.b amount, p.a⟩

/-- The brightness pass of applyTexture: runs over every pixel of the
texture buffer, and only when the offset is nonzero (src/app.js line 426
guards with `if (brightness !== 0)`). -/
def adjustTextureBrightness (tex : List RGBA) (amount : Int) : List RGBA :=
  if amount = 0 then tex else tex.map (fun p => adjustPixel p amount)

/-! ### Blend-settings controls (src/frontend/src/components/Controls.js
lines 44-56, src/frontend/src/App.js lines 141-147)

The brightness slider is declared with `min="-50" max="50"`; the opacity
slider with `min="0" max="100"` and the handler sends `opacity / 100` to
the backend. -/

/-- Lower bound of the brightness range slider in Controls.js. -/
def brightnessSliderMin : Int := -50

/-- Upper bound of the brightness range slider in Controls.js. -/
def brightnessSliderMax : Int := 50

/-- Whether the user-facing brightness control can produce the value
`b`: a range input emits exactly the integers between its min and max. -/
def brightnessControlAdmits (b : Int) : Bool :=
  brightnessSliderMin ≤ b && b ≤ brightnessSliderMax

/-- Upper bound of the opacity slider (percent) in Controls.js. -/
def opacitySliderMax : Nat := 100

/-- The opacity value handed to the texture application, as computed by
handleApplyTexture: `opacity / 100`. -/
def opacityParam (slider : Nat) : ℚ := (slider : ℚ) / 100

end RenderEase

namespace RenderEase

/-! ### Interactive region selection
(src/app.js endSelection lines 337-368; frontend Canvas component
handleMouseUp, referenced from the claims as
src/frontend/src/components/TextureLibrary.js lines 140-163)

Both compute `x = min(start.x, end.x)`, `y = min(start.y, end.y)`,
`width = |end.x - start.x|`, `height = |end.y - start.y|` and accept the
region only when `width > 10 && height > 10`. -/

/-- A selection rectangle in canvas coordinates. -/
structure Region where
  x : ℚ
  y : ℚ
  width : ℚ
  height : ℚ
deriving DecidableEq, Repr

/-- The rectangle built from the drag start and end points, exactly as in
endSelection and handleMouseUp. -/
def mkRegion (sx sy ex ey : ℚ) : Region :=
  ⟨min sx ex, min sy ey, |ex - sx|, |ey - sy|⟩

/-- The region-selected callback of the Canvas component: fires with the
drag rectangle only when both sides exceed 10 pixels, otherwise no
callback fires (modelled as none). -/
def handleMouseUp (isSelecting : Bool) (sx sy ex ey : ℚ) : Option Region :=
  if isSelecting then
    let r := mkRegion sx sy ex ey
    if 10 < r.width ∧ 10 < r.height then some r else none
  else none

/-- The mutable state of the vanilla client that endSelection touches. -/
structure SelState where
  isSelecting : Bool
  startX : ℚ
  startY : ℚ
  selectedRegion : Option Region
  selectionInfoSet : Bool
deriving DecidableEq, Repr

/-- endSelection from src/app.js: stores the drag rectangle when both
sides exceed 10 pixels, otherwise resets the stored selection to null and
the selection info text to None. -/
def endSelection (s : SelState) (ex ey : ℚ) : SelState :=
  if s.isSelecting then
    let r := mkRegion s.startX s.startY ex ey
    if 10 < r.width ∧ 10 < r.height then
      { s with isSelecting := false, selectedRegion := some r, selectionInfoSet := true }
    else
      { s with isSelecting := false, selectedRegion := none, selectionInfoSet := false }
  else s

/-- Clipping of a region to the image bounds, the normalization the spec
requires before a box is used: translate the corner into the image and
cut the extent at the far edge. -/
def clipRegion (W H : ℚ) (r : Region) : Region :=
  let x := max 0 (min r.x W)
  let y := max 0 (min r.y H)
  ⟨x, y, max 0 (min (r.x + r.width) W - x), max 0 (min (r.y + r.height) H - y)⟩

end RenderEase

namespace RenderEase

/-! ### Compositor

Modelled from the spec: the mask-based compositor lives in the Flask
backend (backend/app.py apply-texture-with-mask and
backend/cv_algorithms), which is not among the available sources; the
definitions below follow section 4.7 of the spec literally.  Channels
are rationals in [0, 255]; an image is one channel plane, and
compositing acts on each plane alike.  The SoftLight formula uses the
standard rational (Pegtop) soft-light variant, a smoothed Overlay as the
spec words it. -/

/-- The four blend modes of BlendSettings. -/
inductive BlendMode
  | normal
  | multiply
  | overlay
  | softlight
deriving DecidableEq, Repr

/-- BlendSettings from the spec data model. -/
structure BlendSettings where
  mode : BlendMode
  opacity : ℚ
  brightness : Int
  featherRadius : Nat
deriving DecidableEq, Repr

/-- Clamp a channel value to the valid range [0, 255]. -/
def clamp255 (q : ℚ) : ℚ := max 0 (min 255 q)

/-- Modelled from the spec: the per-pixel blended value B of section 4.7,
per blend mode, with maxValue = 255 (the backend compositor is not among
the available sources). -/
def blendValue (mode : BlendMode) (t tex : ℚ) : ℚ :=
  match mode with
  | .normal => tex
  | .multiply => t * tex / 255
  | .overlay =>
      if t < 255 / 2 then 2 * t * tex / 255
      else 255 - 2 * (255 - t) * (255 - tex) / 255
  | .softlight => (255 - 2 * tex) * t * t / (255 * 255) + 2 * tex * t / 255

/-- One channel plane of an image, row-major over Fin h x Fin w. -/
def Image (w h : Nat) : Type := Fin h × Fin w → ℚ

/-- Modelled from the spec: one output channel of the section 4.7
compositor: brightness-shift the texture, blend, then mix by alphaMask
times opacity and clamp. -/
def compositePixel (s : BlendSettings) (t tex alpha : ℚ) : ℚ :=
  let tex2 := clamp255 (tex + (s.brightness : ℚ))
  let bl := blendValue s.mode t tex2
  clamp255 (t * (1 - alpha * s.opacity) + bl * (alpha * s.opacity))

/-- Modelled from the spec: composite(target, warpedTexture, alphaMask,
settings) of section 4.7, pointwise over the plane. -/
def composite {w h : Nat} (target texture alphaMask : Image w h)
    (s : BlendSettings) : Image w h :=
  fun p => compositePixel s (target p) (texture p) (alphaMask p)

/-- The all-zero alpha mask. -/
def zeroMask (w h : Nat) : Image w h := fun _ => 0

end RenderEase

namespace RenderEase

/-! ### React apply-texture handler
(src/frontend/src/App.js, handleApplyTexture lines 108-157)

The handler returns early, changing only the status line, when image,
texture or region is missing; otherwise it awaits the backend call.  On
a thrown or returned error the catch block only sets the status text;
setCurrentImage runs solely on the success path.  The canvas is a pure
render of currentImage, so an unchanged currentImage leaves the canvas
unchanged.  The backend outcome enters the model as an Except value, the
typed error the caller receives. -/

/-- The App component state touched by handleApplyTexture; image and
texture payloads are opaque type parameters. -/
structure ReactAppState (α τ : Type) where
  originalImage : Option α
  currentImage : Option α
  selectedTexture : Option τ
  selectedRegion : Option Region
  processing : Bool
  status : String

/-- handleApplyTexture from App.js as a state transition, with the
backend call result supplied as an Except value. -/
def handleApplyTexture {α τ : Type} (s : ReactAppState α τ)
    (outcome : Except String α) : ReactAppState α τ :=
  if s.originalImage.isNone || s.selectedTexture.isNone || s.selectedRegion.isNone then
    { s with status := "Please select an image, texture, and region" }
  else
    match outcome with
    | .ok r =>
        { s with currentImage := some r, processing := false,
                 status := "Texture applied successfully" }
    | .error _ =>
        { s with processing := false, status := "Error applying texture" }

end RenderEase

namespace RenderEase

/-! ### Mask refinement (MaskRefiner)

Modelled from the spec: the refinement pipeline lives in
backend/cv_algorithms (not among the available sources); section 4.5
describes it as morphological opening (erode then dilate by a 3x3
square), then closing (dilate then erode), then a small-kernel blur of
the binary mask re-thresholded at 0.5.  Masks are Bool planes; the 3x3
structuring element is the Chebyshev-distance-1 neighborhood, with
out-of-range neighbors ignored (erosion does not require them, dilation
and the blur do not see them), matching the border behavior of the
OpenCV primitives the docs reference.  Feathering at radius 0 is the
identity on a binary mask (section 4.5), so refineMask below is the
whole radius-0 refinement. -/

/-- A binary mask over a w by h pixel grid. -/
def Mask (w h : Nat) : Type := Fin h × Fin w → Bool

/-- Two grid positions are within Chebyshev distance 1 (the 3x3
structuring element centered at the first). -/
def adjacent {w h : Nat} (p q : Fin h × Fin w) : Prop :=
  ((p.1 : Int) - (q.1 : Int)) ≤ 1 ∧ ((q.1 : Int) - (p.1 : Int)) ≤ 1 ∧
  ((p.2 : Int) - (q.2 : Int)) ≤ 1 ∧ ((q.2 : Int) - (p.2 : Int)) ≤ 1

instance {w h : Nat} (p q : Fin h × Fin w) : Decidable (adjacent p q) := by
  unfold adjacent; infer_instance

/-- Modelled from the spec: dilation by the 3x3 square. -/
def dilate {w h : Nat} (m : Mask w h) : Mask w h :=
  fun p => decide (∃ q, adjacent p q ∧ m q = true)

/-- Modelled from the spec: erosion by the 3x3 square. -/
def erode {w h : Nat} (m : Mask w h) : Mask w h :=
  fun p => decide (∀ q, adjacent p q → m q = true)

/-- Morphological opening: noise removal (erode then dilate). -/
def opening {w h : Nat} (m : Mask w h) : Mask w h := dilate (erode m)

/-- Morphological closing: hole filling (dilate then erode). -/
def closing {w h : Nat} (m : Mask w h) : Mask w h := erode (dilate m)

/-- The opening-then-closing part of refinement. -/
def openClose {w h : Nat} (m : Mask w h) : Mask w h := closing (opening m)

/-- Modelled from the spec: edge smoothing, a 3x3 box blur of the binary
mask re-thresholded at 0.5 (a pixel survives when at least half of its
in-range neighborhood is foreground). -/
def smoothHalf {w h : Nat} (m : Mask w h) : Mask w h :=
  fun p =>
    decide ((Finset.univ.filter (fun q => adjacent p q)).card ≤
      2 * (Finset.univ.filter (fun q => adjacent p q ∧ m q = true)).card)

/-- Modelled from the spec: the full binary refinement pipeline of
section 4.5: opening, closing, then edge smoothing. -/
def refineMask {w h : Nat} (m : Mask w h) : Mask w h :=
  smoothHalf (openClose m)

/-- Pointwise order on masks: foreground of the first is contained in
foreground of the second. -/
def mle {w h : Nat} (a b : Mask w h) : Prop :=
  ∀ p, a p = true → b p = true

/-! ### Box-seeded segmentation (Segmenter, section 4.1)

Modelled from the spec: the GrabCut-style segmenter lives in
backend/cv_algorithms/advanced_segmentation.py, which is not among the
available sources.  Section 4.1 is embedded with its color model
simplified to one Gaussian component per class over a single channel
(the class mean), and the min-cut taken with zero smoothness weight, so
each iteration is: fit the two class means from the current partition,
then reclassify every pixel inside the box by maximum likelihood, while
every pixel strictly outside the box stays hard-constrained to
background.  The validation, iteration structure, hard constraint,
confidence formula and degenerate fallback follow the spec text
literally; only the color-model internals are simplified. -/

/-- Segmentation failures of section 7. -/
inductive SegError
  | InvalidBoundingBox
  | DegenerateSegmentation
deriving DecidableEq, Repr

/-- BoundingBox from the spec data model: non-negative integer corner
and extent. -/
structure BoundingBox where
  x : Nat
  y : Nat
  width : Nat
  height : Nat
deriving DecidableEq, Repr

/-- Modelled from the spec: the box is rejected when it has zero area or
does not lie inside the w by h image. -/
def boxInvalid (w h : Nat) (b : BoundingBox) : Bool :=
  b.width = 0 || b.height = 0 || w < b.x + b.width || h < b.y + b.height

/-- Whether a grid position lies inside the box. -/
def inBox {w h : Nat} (b : BoundingBox) (p : Fin h × Fin w) : Bool :=
  decide (b.x ≤ p.2.val ∧ p.2.val < b.x + b.width ∧
          b.y ≤ p.1.val ∧ p.1.val < b.y + b.height)

/-- Mean channel value of the pixels a class currently owns (0 when the
class is empty). -/
def classMean {w h : Nat} (img : Image w h) (cls : Mask w h) : ℚ :=
  let s := Finset.univ.filter (fun p => cls p = true)
  if s.card = 0 then 0 else (s.sum img) / s.card

/-- Modelled from the spec: one segmentation iteration: re-estimate the
two class means from the current partition, then reclassify each
inside-box pixel to the nearer mean; pixels strictly outside the box are
hard-constrained to background. -/
def segStep {w h : Nat} (img : Image w h) (b : BoundingBox)
    (m : Mask w h) : Mask w h :=
  let fgMean := classMean img m
  let bgMean := classMean img (fun p => !(m p))
  fun p => inBox b p && decide (|img p - fgMean| ≤ |img p - bgMean|)

/-- The partition after k iterations, started from the box interior. -/
def segIterate {w h : Nat} (img : Image w h) (b : BoundingBox) :
    Nat → Mask w h
  | 0 => fun p => inBox b p
  | k + 1 => segStep img b (segIterate img b k)

/-- SegmentationResult from the spec data model. -/
structure SegmentationResult (w h : Nat) where
  mask : Mask w h
  confidence : ℚ
  boundingBox : BoundingBox

/-- Foreground pixel count of a mask. -/
def fgCount {w h : Nat} (m : Mask w h) : Nat :=
  (Finset.univ.filter (fun p => m p = true)).card

/-- Modelled from the spec: segmentByBox(image, box, iterations).
Rejects a zero-area or out-of-image box with InvalidBoundingBox, runs
the iterative fit-and-cut loop with the outside of the box
hard-constrained to background, and on a degenerate collapse (the
foreground class ends empty) falls back to returning the box interior as
the mask, as section 4.1 prescribes.  Confidence is the foreground
pixel ratio. -/
def segmentByBox {w h : Nat} (img : Image w h) (b : BoundingBox)
    (iterations : Nat) : Except SegError (SegmentationResult w h) :=
  if boxInvalid w h b then .error .InvalidBoundingBox
  else if fgCount (segIterate img b iterations) = 0 then
    .ok ⟨fun p => inBox b p, (fgCount (fun p : Fin h × Fin w => inBox b p) : ℚ) / (w * h), b⟩
  else
    .ok ⟨segIterate img b iterations,
         (fgCount (segIterate img b iterations) : ℚ) / (w * h), b⟩

/-- A concrete 3 by 3 sample image used by witnesses: a bright lower
right block on a dark background. -/
def sampleImage3 : Image 3 3 :=
  fun p => if 1 ≤ p.1.val ∧ 1 ≤ p.2.val then 200 else 10

/-! ### Statelessness of the core (sections 3, 5 and 6)

Modelled from the spec: the request handling of the Flask backend
(backend/app.py) is not among the available sources; the spec states
that the core persists no state between calls and that no entity
outlives a single processing call.  The embedding threads an explicit
core-state record through a sequence of calls, so that statelessness is
a provable property of the trace semantics rather than a convention: a
call computes its result from its own request alone and returns the
state slot untouched. -/

/-- The between-calls state of the core.  The record carries the slot a
stateful implementation would use; per the spec it stays empty. -/
structure CoreState where
  retained : List ℚ
deriving DecidableEq, Repr

/-- The core state a fresh core starts from. -/
def initCoreState : CoreState := ⟨[]⟩

/-- One processing request: target image, box hint, iteration count. -/
structure CoreRequest (w h : Nat) where
  image : Image w h
  box : BoundingBox
  iterations : Nat

/-- Modelled from the spec: one full processing call against the core;
per section 6 the result is a function of the request alone and the
persisted state is handed back untouched. -/
def handleRequest {w h : Nat} (s : CoreState) (r : CoreRequest w h) :
    Except SegError (SegmentationResult w h) × CoreState :=
  (segmentByBox r.image r.box r.iterations, s)

/-- A sequence of calls against one core, threading the state. -/
def runTrace {w h : Nat} (s : CoreState) :
    List (CoreRequest w h) → List (Except SegError (SegmentationResult w h))
  | [] => []
  | r :: rs => (handleRequest s r).1 :: runTrace (handleRequest s r).2 rs

/-- The core state left after a sequence of calls. -/
def finalState {w h : Nat} (s : CoreState) :
    List (CoreRequest w h) → CoreState
  | [] => s
  | r :: rs => finalState (handleRequest s r).2 rs

/-- The concrete 5 by 5 mask exhibiting non-idempotence of refineMask. -/
def cexRows : List (List Bool) :=
  [[true, true, false, true, true],
   [true, true, true, true, false],
   [false, true, false, false, true],
   [false, true, false, false, true],
   [true, false, true, true, true]]

/-- The counterexample mask as a Bool plane. -/
def cexMask : Mask 5 5 :=
  fun p => (cexRows.getD p.1.val []).getD p.2.val false

end RenderEase

namespace RenderEase

/-! ### Homography (section 4.6)

Modelled from the spec: perspective estimation and warping live in the
Flask backend (OpenCV calls behind backend/app.py apply-texture), not
among the available sources.  Section 4.6 solves the 8 unknowns of the
direct linear transform exactly from the 4 correspondences; specialized
to the canonical unit source square the exact solution has the closed
form below over rational arithmetic, and the estimator fails exactly
when the linear system is singular (DegenerateCorrespondence). -/

/-- A 2-D point with rational coordinates. -/
@[ext]
structure Pt where
  x : ℚ
  y : ℚ
deriving DecidableEq, Repr

/-- An ordered destination quadrilateral. -/
structure Quad where
  p0 : Pt
  p1 : Pt
  p2 : Pt
  p3 : Pt
deriving DecidableEq, Repr

/-- Twice the signed area of the triangle a, b, c: zero exactly when the
three points are collinear or coincide. -/
def cross2 (a b c : Pt) : ℚ :=
  (a.x - b.x) * (c.y - b.y) - (a.y - b.y) * (c.x - b.x)

/-- The destination corners are non-degenerate: no three of the four are
collinear and none coincide. -/
def NonDegenerate (q : Quad) : Prop :=
  cross2 q.p1 q.p2 q.p3 ≠ 0 ∧ cross2 q.p0 q.p2 q.p3 ≠ 0 ∧
  cross2 q.p0 q.p1 q.p2 ≠ 0 ∧ cross2 q.p0 q.p1 q.p3 ≠ 0

/-- A 3x3 homography with the bottom right entry normalized to 1. -/
structure Homography where
  a : ℚ
  b : ℚ
  c : ℚ
  d : ℚ
  e : ℚ
  f : ℚ
  g : ℚ
  hh : ℚ
deriving DecidableEq, Repr

/-- Determinant of the 2x2 subsystem for the projective terms of the
unit-square DLT; it coincides with the triangle area of p1, p2, p3. -/
def hDet (q : Quad) : ℚ := cross2 q.p1 q.p2 q.p3

/-- Numerator of the projective term g of the unit-square DLT. -/
def hGnum (q : Quad) : ℚ :=
  (q.p0.x - q.p1.x + q.p2.x - q.p3.x) * (q.p3.y - q.p2.y) -
  (q.p0.y - q.p1.y + q.p2.y - q.p3.y) * (q.p3.x - q.p2.x)

/-- Numerator of the projective term h of the unit-square DLT. -/
def hHnum (q : Quad) : ℚ :=
  (q.p1.x - q.p2.x) * (q.p0.y - q.p1.y + q.p2.y - q.p3.y) -
  (q.p1.y - q.p2.y) * (q.p0.x - q.p1.x + q.p2.x - q.p3.x)

/-- The homography the DLT produces for a non-singular system. -/
def solvedHomography (q : Quad) : Homography :=
  ⟨q.p1.x - q.p0.x + hGnum q / hDet q * q.p1.x,
   q.p3.x - q.p0.x + hHnum q / hDet q * q.p3.x,
   q.p0.x,
   q.p1.y - q.p0.y + hGnum q / hDet q * q.p1.y,
   q.p3.y - q.p0.y + hHnum q / hDet q * q.p3.y,
   q.p0.y,
   hGnum q / hDet q,
   hHnum q / hDet q⟩

/-- Modelled from the spec: estimate(sourceRect, destQuad) of section
4.6 specialized to the canonical unit source square (0,0), (1,0), (1,1),
(0,1): the exact solution of the 8-equation direct linear transform, or
none when the system is singular. -/
def estimateHomography (q : Quad) : Option Homography :=
  if hDet q = 0 then none else some (solvedHomography q)

/-- Modelled from the spec: application of a homography to a point:
homogeneous multiplication then the perspective divide; none when the
denominator vanishes. -/
def applyHomography (m : Homography) (p : Pt) : Option Pt :=
  if m.g * p.x + m.hh * p.y + 1 = 0 then none
  else some ⟨(m.a * p.x + m.b * p.y + m.c) / (m.g * p.x + m.hh * p.y + 1),
             (m.d * p.x + m.e * p.y + m.f) / (m.g * p.x + m.hh * p.y + 1)⟩

end RenderEase

namespace RenderEase

/-! ### Theorems for claims C3, C5, C8, C10 -/

/-- C3: applying settings.brightness adds the offset to every color
channel of the texture and clamps to [0, 255]; brightness +50 on channel
value 240 gives exactly 255; no channel ever leaves the byte range. -/
theorem brightness_offset_clamps (tex : List RGBA) (amount : Int)
    (hin : ∀ p ∈ tex, pixelInRange p) :
    (∀ p ∈ adjustTextureBrightness tex amount, pixelInRange p) ∧
    adjustChannel 240 50 = 255 ∧
    (∀ v b : Int, 0 ≤ adjustChannel v b ∧ adjustChannel v b ≤ 255) := by
  refine ⟨?_, by decide, ?_⟩
  · intro p hp
    unfold adjustTextureBrightness at hp
    by_cases h0 : amount = 0
    · simp [h0] at hp
      exact hin p hp
    · simp [h0] at hp
      obtain ⟨q, hq, rfl⟩ := hp
      unfold adjustPixel pixelInRange adjustChannel
      have hq' := hin q hq
      unfold pixelInRange at hq'
      refine ⟨le_max_left _ _, ?_, le_max_left _ _, ?_, le_max_left _ _, ?_, hq'.2.2.2.2.2.2.1, hq'.2.2.2.2.2.2.2⟩ <;>
        simp [max_le_iff]
  · intro v b
    unfold adjustChannel
    constructor
    · exact le_max_left _ _
    · simp [max_le_iff]

/-- Witness for brightness_offset_clamps at a concrete texture. -/
theorem brightness_offset_clamps_witness :
    (∀ p ∈ [RGBA.mk 240 10 0 255], pixelInRange p) ∧
    ((∀ p ∈ adjustTextureBrightness [RGBA.mk 240 10 0 255] 50, pixelInRange p) ∧
     adjustChannel 240 50 = 255 ∧
     (∀ v b : Int, 0 ≤ adjustChannel v b ∧ adjustChannel v b ≤ 255)) :=
  ⟨by decide, brightness_offset_clamps [RGBA.mk 240 10 0 255] 50 (by decide)⟩

/-- C5 counterexample: the user-facing brightness control does not expose
the range [-255, 255]; its range input is declared min -50, max 50 in
Controls.js, so -255 is not an admissible slider value. -/
theorem brightness_range_mismatch :
    ¬ (∀ b : Int, brightnessControlAdmits b = true ↔ (-255 ≤ b ∧ b ≤ 255)) := by
  intro hall
  have h2 := (hall (-255)).mpr (by norm_num)
  revert h2
  decide

/-- C5 amended: the clamped brightness adjustment accepts every integer
offset in [-255, 255] and keeps every channel in the valid range, and the
opacity slider spans exactly [0, 1] after the division by 100, but the
user-facing brightness control exposes only the integers in [-50, 50]. -/
theorem blend_settings_ranges (b v : Int)
    (hb1 : -255 ≤ b) (hb2 : b ≤ 255) (hv1 : 0 ≤ v) (hv2 : v ≤ 255) :
    (0 ≤ adjustChannel v b ∧ adjustChannel v b ≤ 255) ∧
    (∀ s : Nat, s ≤ opacitySliderMax → 0 ≤ opacityParam s ∧ opacityParam s ≤ 1) ∧
    (∀ c : Int, brightnessControlAdmits c = true ↔ (-50 ≤ c ∧ c ≤ 50)) := by
  refine ⟨⟨le_max_left _ _, by simp [adjustChannel, max_le_iff]⟩, ?_, ?_⟩
  · intro s hs
    constructor
    · unfold opacityParam; positivity
    · unfold opacityParam
      rw [div_le_one (by norm_num)]
      exact_mod_cast le_trans hs (by norm_num [opacitySliderMax])
  · intro c
    simp only [brightnessControlAdmits, brightnessSliderMin, brightnessSliderMax,
      Bool.and_eq_true, decide_eq_true_eq]

/-- Witness for blend_settings_ranges at offset -255 and channel 240. -/
theorem blend_settings_ranges_witness :
    ((-255 : Int) ≤ -255 ∧ (-255 : Int) ≤ 255 ∧ (0 : Int) ≤ 240 ∧ (240 : Int) ≤ 255) ∧
    ((0 ≤ adjustChannel 240 (-255) ∧ adjustChannel 240 (-255) ≤ 255) ∧
     (∀ s : Nat, s ≤ opacitySliderMax → 0 ≤ opacityParam s ∧ opacityParam s ≤ 1) ∧
     (∀ c : Int, brightnessControlAdmits c = true ↔ (-50 ≤ c ∧ c ≤ 50))) :=
  ⟨by norm_num,
   blend_settings_ranges (-255) 240 (by norm_num) (by norm_num) (by norm_num) (by norm_num)⟩

/-- The drag rectangle corner plus extent reaches the far drag corner. -/
theorem min_add_abs_sub (a b : ℚ) : min a b + |b - a| = max a b := by
  rcases le_total a b with h | h
  · rw [min_eq_left h, abs_of_nonneg (by linarith), max_eq_right h]; ring
  · rw [min_eq_right h, abs_of_nonpos (by linarith), max_eq_left h]; ring

/-- A region already inside the image bounds is a fixpoint of clipping. -/
theorem clipRegion_eq_self (W H : ℚ) (r : Region)
    (h1 : 0 ≤ r.x) (h2 : 0 ≤ r.y) (h3 : 0 ≤ r.width) (h4 : 0 ≤ r.height)
    (h5 : r.x + r.width ≤ W) (h6 : r.y + r.height ≤ H) :
    clipRegion W H r = r := by
  unfold clipRegion
  rw [min_eq_left (by linarith), min_eq_left (by linarith),
      max_eq_right h1, max_eq_right h2,
      min_eq_left h5, min_eq_left h6]
  simp [max_eq_right, h3, h4]

/-- C8: a region emitted by the canvas selection, given mouse coordinates
inside the canvas, has non-negative x, y, width, height, fits inside the
image bounds, and is a fixpoint of clipping to those bounds. -/
theorem emitted_region_within_bounds (isSel : Bool) (sx sy ex ey W H : ℚ)
    (hsx0 : 0 ≤ sx) (hsxW : sx ≤ W) (hsy0 : 0 ≤ sy) (hsyH : sy ≤ H)
    (hex0 : 0 ≤ ex) (hexW : ex ≤ W) (hey0 : 0 ≤ ey) (heyH : ey ≤ H) :
    ∀ r : Region, handleMouseUp isSel sx sy ex ey = some r →
      0 ≤ r.x ∧ 0 ≤ r.y ∧ 0 ≤ r.width ∧ 0 ≤ r.height ∧
      r.x + r.width ≤ W ∧ r.y + r.height ≤ H ∧ clipRegion W H r = r := by
  intro r hr
  unfold handleMouseUp at hr
  cases isSel with
  | false => simp at hr
  | true =>
    simp only [if_true] at hr
    split at hr
    · cases hr
      have hx : 0 ≤ min sx ex := le_min hsx0 hex0
      have hy : 0 ≤ min sy ey := le_min hsy0 hey0
      have hw : (0 : ℚ) ≤ |ex - sx| := abs_nonneg _
      have hh : (0 : ℚ) ≤ |ey - sy| := abs_nonneg _
      have hxw : min sx ex + |ex - sx| ≤ W := by
        rw [min_add_abs_sub]; exact max_le hsxW hexW
      have hyh : min sy ey + |ey - sy| ≤ H := by
        rw [min_add_abs_sub]; exact max_le hsyH heyH
      exact ⟨hx, hy, hw, hh, hxw, hyh,
        clipRegion_eq_self W H _ hx hy hw hh hxw hyh⟩
    · cases hr

/-- Witness for emitted_region_within_bounds on a concrete drag. -/
theorem emitted_region_within_bounds_witness :
    ((0 : ℚ) ≤ 5 ∧ (5 : ℚ) ≤ 100 ∧ (0 : ℚ) ≤ 5 ∧ (5 : ℚ) ≤ 80 ∧
     (0 : ℚ) ≤ 50 ∧ (50 : ℚ) ≤ 100 ∧ (0 : ℚ) ≤ 40 ∧ (40 : ℚ) ≤ 80) ∧
    (∀ r : Region, handleMouseUp true 5 5 50 40 = some r →
      0 ≤ r.x ∧ 0 ≤ r.y ∧ 0 ≤ r.width ∧ 0 ≤ r.height ∧
      r.x + r.width ≤ 100 ∧ r.y + r.height ≤ 80 ∧ clipRegion 100 80 r = r) :=
  ⟨by norm_num,
   emitted_region_within_bounds true 5 5 50 40 100 80
     (by norm_num) (by norm_num) (by norm_num) (by norm_num)
     (by norm_num) (by norm_num) (by norm_num) (by norm_num)⟩

/-- C10: an emitted region has both sides strictly above 10 pixels and
non-negative fields; a drag of 10 pixels or less in either dimension
emits no region, the callback does not fire, and the stored selection is
reset to null. -/
theorem small_drag_produces_no_region (s : SelState) (ex ey : ℚ)
    (hsel : s.isSelecting = true)
    (hx0 : 0 ≤ s.startX) (hy0 : 0 ≤ s.startY) (hex : 0 ≤ ex) (hey : 0 ≤ ey) :
    (∀ r : Region, handleMouseUp true s.startX s.startY ex ey = some r →
        10 < r.width ∧ 10 < r.height ∧
        0 ≤ r.x ∧ 0 ≤ r.y ∧ 0 ≤ r.width ∧ 0 ≤ r.height) ∧
    ((|ex - s.startX| ≤ 10 ∨ |ey - s.startY| ≤ 10) →
        handleMouseUp true s.startX s.startY ex ey = none ∧
        (endSelection s ex ey).selectedRegion = none) := by
  constructor
  · intro r hr
    unfold handleMouseUp at hr
    simp only [if_true] at hr
    split at hr
    · cases hr
      rename_i hbig
      exact ⟨hbig.1, hbig.2, le_min hx0 hex, le_min hy0 hey,
        abs_nonneg _, abs_nonneg _⟩
    · cases hr
  · intro hsmall
    have hnot : ¬ (10 < (mkRegion s.startX s.startY ex ey).width ∧
        10 < (mkRegion s.startX s.startY ex ey).height) := by
      unfold mkRegion
      rcases hsmall with h | h
      · intro hc; exact absurd hc.1 (by simpa using not_lt.mpr h)
      · intro hc; exact absurd hc.2 (by simpa using not_lt.mpr h)
    constructor
    · unfold handleMouseUp
      simp only [if_true]
      rw [if_neg hnot]
    · unfold endSelection
      rw [hsel]
      simp only [if_true]
      rw [if_neg hnot]

/-- Witness for small_drag_produces_no_region: a 5 by 5 drag clears an
existing stored selection and fires no callback. -/
theorem small_drag_produces_no_region_witness :
    ((SelState.mk true 3 4 (some (Region.mk 0 0 20 20)) true).isSelecting = true ∧
     (0 : ℚ) ≤ 3 ∧ (0 : ℚ) ≤ 4 ∧ (0 : ℚ) ≤ 8 ∧ (0 : ℚ) ≤ 9) ∧
    ((∀ r : Region, handleMouseUp true 3 4 8 9 = some r →
        10 < r.width ∧ 10 < r.height ∧
        0 ≤ r.x ∧ 0 ≤ r.y ∧ 0 ≤ r.width ∧ 0 ≤ r.height) ∧
     ((|(8 : ℚ) - 3| ≤ 10 ∨ |(9 : ℚ) - 4| ≤ 10) →
        handleMouseUp true 3 4 8 9 = none ∧
        (endSelection (SelState.mk true 3 4 (some (Region.mk 0 0 20 20)) true) 8 9).selectedRegion = none)) :=
  ⟨⟨rfl, by norm_num, by norm_num, by norm_num, by norm_num⟩,
   small_drag_produces_no_region (SelState.mk true 3 4 (some (Region.mk 0 0 20 20)) true) 8 9
     rfl (by norm_num) (by norm_num) (by norm_num) (by norm_num)⟩

/-- C4: compositing with an all-zero alpha mask returns the target image
unchanged, for every blend mode, opacity, and brightness offset, given
target channels in the valid range. -/
theorem composite_zero_mask_identity {w h : Nat}
    (target texture : Image w h) (s : BlendSettings)
    (hin : ∀ p, 0 ≤ target p ∧ target p ≤ 255) :
    composite target texture (zeroMask w h) s = target := by
  funext p
  unfold composite compositePixel zeroMask
  simp only [zero_mul, mul_zero, sub_zero, mul_one, add_zero]
  unfold clamp255
  rw [min_eq_right (hin p).2, max_eq_right (hin p).1]

/-- Witness for composite_zero_mask_identity on a concrete 1 by 1 image
with SoftLight mode, opacity 1/2, brightness 20. -/
theorem composite_zero_mask_identity_witness :
    (∀ p : Fin 1 × Fin 1, 0 ≤ (fun _ => (100 : ℚ)) p ∧ (fun _ => (100 : ℚ)) p ≤ 255) ∧
    composite (w := 1) (h := 1) (fun _ => (100 : ℚ)) (fun _ => (37 : ℚ)) (zeroMask 1 1)
      (BlendSettings.mk BlendMode.softlight (1 / 2) 20 3) = (fun _ => (100 : ℚ)) :=
  ⟨fun _ => by norm_num,
   composite_zero_mask_identity (fun _ => (100 : ℚ)) (fun _ => (37 : ℚ))
     (BlendSettings.mk BlendMode.softlight (1 / 2) 20 3) (fun _ => by norm_num)⟩

/-- C6: when the inputs are missing or the backend reports an error, the
apply-texture handler leaves the displayed image and the original image
exactly as they were; only the success path updates currentImage. -/
theorem failed_apply_preserves_images {α τ : Type} (s : ReactAppState α τ)
    (outcome : Except String α) (e : String) (herr : outcome = Except.error e) :
    (handleApplyTexture s outcome).currentImage = s.currentImage ∧
    (handleApplyTexture s outcome).originalImage = s.originalImage ∧
    (∀ out2 : Except String α, s.selectedRegion = none →
      (handleApplyTexture s out2).currentImage = s.currentImage ∧
      (handleApplyTexture s out2).originalImage = s.originalImage) := by
  subst herr
  refine ⟨?_, ?_, ?_⟩
  · unfold handleApplyTexture
    split
    · rfl
    · rfl
  · unfold handleApplyTexture
    split
    · rfl
    · rfl
  · intro out2 hnone
    unfold handleApplyTexture
    rw [if_pos (by simp [hnone])]
    exact ⟨rfl, rfl⟩

/-- Witness for failed_apply_preserves_images on a concrete state and a
concrete backend error. -/
theorem failed_apply_preserves_images_witness :
    ((Except.error "backend failure" : Except String Nat) = Except.error "backend failure") ∧
    ((handleApplyTexture (ReactAppState.mk (τ := Nat) (some 7) (some 7) (some 1)
        (some (Region.mk 0 0 20 20)) false "Ready") (Except.error "backend failure")).currentImage =
      (ReactAppState.mk (τ := Nat) (some 7) (some 7) (some 1)
        (some (Region.mk 0 0 20 20)) false "Ready").currentImage ∧
     (handleApplyTexture (ReactAppState.mk (τ := Nat) (some 7) (some 7) (some 1)
        (some (Region.mk 0 0 20 20)) false "Ready") (Except.error "backend failure")).originalImage =
      (ReactAppState.mk (τ := Nat) (some 7) (some 7) (some 1)
        (some (Region.mk 0 0 20 20)) false "Ready").originalImage ∧
     (∀ out2 : Except String Nat,
        (ReactAppState.mk (τ := Nat) (some 7) (some 7) (some 1)
          (some (Region.mk 0 0 20 20)) false "Ready").selectedRegion = none →
        (handleApplyTexture (ReactAppState.mk (τ := Nat) (some 7) (some 7) (some 1)
          (some (Region.mk 0 0 20 20)) false "Ready") out2).currentImage =
          (ReactAppState.mk (τ := Nat) (some 7) (some 7) (some 1)
            (some (Region.mk 0 0 20 20)) false "Ready").currentImage ∧
        (handleApplyTexture (ReactAppState.mk (τ := Nat) (some 7) (some 7) (some 1)
          (some (Region.mk 0 0 20 20)) false "Ready") out2).originalImage =
          (ReactAppState.mk (τ := Nat) (some 7) (some 7) (some 1)
            (some (Region.mk 0 0 20 20)) false "Ready").originalImage)) :=
  ⟨rfl,
   failed_apply_preserves_images
     (ReactAppState.mk (τ := Nat) (some 7) (some 7) (some 1)
       (some (Region.mk 0 0 20 20)) false "Ready")
     (Except.error "backend failure") "backend failure" rfl⟩

/-! ### Morphology lemmas and the idempotence claim C9 -/

/-- The 3x3 neighborhood relation is symmetric. -/
theorem adjacent_symm {w h : Nat} {p q : Fin h × Fin w}
    (hpq : adjacent p q) : adjacent q p := by
  unfold adjacent at hpq ⊢
  omega

/-- Unfolding lemma for dilation. -/
theorem dilate_eq_true {w h : Nat} {m : Mask w h} {p : Fin h × Fin w} :
    dilate m p = true ↔ ∃ q, adjacent p q ∧ m q = true := by
  simp [dilate]

/-- Unfolding lemma for erosion. -/
theorem erode_eq_true {w h : Nat} {m : Mask w h} {p : Fin h × Fin w} :
    erode m p = true ↔ ∀ q, adjacent p q → m q = true := by
  simp [erode]

/-- The mask order is antisymmetric. -/
theorem mle_antisymm {w h : Nat} {a b : Mask w h}
    (h1 : mle a b) (h2 : mle b a) : a = b := by
  funext p
  cases hap : a p with
  | true => rw [h1 p hap]
  | false =>
    cases hbp : b p with
    | true => exact absurd (h2 p hbp) (by simp [hap])
    | false => rfl

/-- Dilation is monotone. -/
theorem dilate_mono {w h : Nat} {a b : Mask w h} (hab : mle a b) :
    mle (dilate a) (dilate b) := by
  intro p hp
  rw [dilate_eq_true] at hp ⊢
  obtain ⟨q, hq, hm⟩ := hp
  exact ⟨q, hq, hab q hm⟩

/-- Erosion is monotone. -/
theorem erode_mono {w h : Nat} {a b : Mask w h} (hab : mle a b) :
    mle (erode a) (erode b) := by
  intro p hp
  rw [erode_eq_true] at hp ⊢
  exact fun q hq => hab q (hp q hq)

/-- Opening is anti-extensive. -/
theorem opening_le {w h : Nat} (m : Mask w h) : mle (opening m) m := by
  intro p hp
  rw [opening] at hp
  rw [dilate_eq_true] at hp
  obtain ⟨q, hq, hqe⟩ := hp
  rw [erode_eq_true] at hqe
  exact hqe p (adjacent_symm hq)

/-- Closing is extensive. -/
theorem le_closing {w h : Nat} (m : Mask w h) : mle m (closing m) := by
  intro p hp
  rw [closing]
  rw [erode_eq_true]
  intro q hq
  rw [dilate_eq_true]
  exact ⟨p, adjacent_symm hq, hp⟩

/-- Erosion absorbs a following dilate-erode pair. -/
theorem erode_dilate_erode {w h : Nat} (m : Mask w h) :
    erode (dilate (erode m)) = erode m :=
  mle_antisymm (erode_mono (opening_le m)) (le_closing (erode m))

/-- Dilation absorbs a following erode-dilate pair. -/
theorem dilate_erode_dilate {w h : Nat} (m : Mask w h) :
    dilate (erode (dilate m)) = dilate m :=
  mle_antisymm (opening_le (dilate m)) (dilate_mono (le_closing m))

/-- Opening is idempotent. -/
theorem opening_idem {w h : Nat} (m : Mask w h) :
    opening (opening m) = opening m := by
  show dilate (erode (dilate (erode m))) = dilate (erode m)
  rw [erode_dilate_erode]

/-- Closing is idempotent. -/
theorem closing_idem {w h : Nat} (m : Mask w h) :
    closing (closing m) = closing m := by
  show erode (dilate (erode (dilate m))) = erode (dilate m)
  rw [dilate_erode_dilate]

/-- Opening is monotone. -/
theorem opening_mono {w h : Nat} {a b : Mask w h} (hab : mle a b) :
    mle (opening a) (opening b) :=
  dilate_mono (erode_mono hab)

/-- Closing is monotone. -/
theorem closing_mono {w h : Nat} {a b : Mask w h} (hab : mle a b) :
    mle (closing a) (closing b) :=
  erode_mono (dilate_mono hab)

set_option maxRecDepth 100000 in
/-- C9 counterexample: the full refinement is not idempotent; on the
concrete 5 by 5 mask cexMask a second pass erases the pixel at (0, 0)
that the first pass kept (the smoothing re-threshold emits a small blob
that the next opening removes). -/
theorem refineMask_not_idempotent :
    refineMask (refineMask cexMask) ≠ refineMask cexMask := by
  intro hEq
  have h1 : refineMask cexMask (0, 0) = true := by decide
  have h2 : refineMask (refineMask cexMask) (0, 0) = false := by decide
  rw [hEq, h1] at h2
  exact Bool.noConfusion h2

/-- C9 amended: the noise-removal and hole-filling stages of mask
refinement, morphological opening followed by closing, form an
idempotent filter: a second opening-closing pass over an already-treated
mask changes nothing.  The final edge-smoothing re-threshold is what
breaks idempotence of the full refineMask. -/
theorem openClose_idempotent {w h : Nat} (m : Mask w h) :
    openClose (openClose m) = openClose m := by
  apply mle_antisymm
  · have h1 : mle (opening (openClose m)) (openClose m) := opening_le _
    have h2 : mle (closing (opening (openClose m))) (closing (openClose m)) :=
      closing_mono h1
    have h3 : closing (openClose m) = openClose m := closing_idem (opening m)
    rw [h3] at h2
    exact h2
  · have h1 : mle (opening m) (closing (opening m)) := le_closing _
    have h2 : mle (opening (opening m)) (opening (closing (opening m))) :=
      opening_mono h1
    rw [opening_idem m] at h2
    exact closing_mono h2

/-! ### Homography round-trip claim C2 -/

/-- Denominator identity at source corner (1,0): g plus one times the
determinant is the triangle area of p0, p2, p3. -/
theorem hGnum_add_det (q : Quad) :
    hGnum q + hDet q = cross2 q.p0 q.p2 q.p3 := by
  simp only [hGnum, hDet, cross2]; ring

/-- Denominator identity at source corner (0,1): h plus one times the
determinant is the triangle area of p0, p1, p2. -/
theorem hHnum_add_det (q : Quad) :
    hHnum q + hDet q = cross2 q.p0 q.p1 q.p2 := by
  simp only [hHnum, hDet, cross2]; ring

/-- Denominator identity at source corner (1,1): g plus h plus one times
the determinant is the triangle area of p0, p1, p3. -/
theorem hGHnum_add_det (q : Quad) :
    hGnum q + hHnum q + hDet q = cross2 q.p0 q.p1 q.p3 := by
  simp only [hGnum, hHnum, hDet, cross2]; ring

/-- C2: for any non-degenerate destination corners, estimating the
homography from the canonical unit source square and applying it to the
four canonical source corners reproduces the destination corners, here
exactly over rational arithmetic, hence in particular within the 1e-3
pixel tolerance the spec allows. -/
theorem homography_roundtrip (q : Quad) (hnd : NonDegenerate q) :
    ∃ m, estimateHomography q = some m ∧
      applyHomography m (Pt.mk 0 0) = some q.p0 ∧
      applyHomography m (Pt.mk 1 0) = some q.p1 ∧
      applyHomography m (Pt.mk 1 1) = some q.p2 ∧
      applyHomography m (Pt.mk 0 1) = some q.p3 := by
  obtain ⟨h123, h023, h012, h013⟩ := hnd
  have hdet : hDet q ≠ 0 := h123
  have hdet2 : (q.p1.x - q.p2.x) * (q.p3.y - q.p2.y) -
      (q.p1.y - q.p2.y) * (q.p3.x - q.p2.x) ≠ 0 := by
    simpa [hDet, cross2] using hdet
  have hw1 : hGnum q / hDet q + 1 ≠ 0 := by
    intro hz
    apply h023
    rw [← hGnum_add_det]
    field_simp [hdet] at hz
    linarith
  have hw2 : hHnum q / hDet q + 1 ≠ 0 := by
    intro hz
    apply h012
    rw [← hHnum_add_det]
    field_simp [hdet] at hz
    linarith
  have hw3 : hGnum q / hDet q + hHnum q / hDet q + 1 ≠ 0 := by
    intro hz
    apply h013
    rw [← hGHnum_add_det]
    field_simp [hdet] at hz
    linarith
  refine ⟨solvedHomography q, ?_, ?_, ?_, ?_, ?_⟩
  · unfold estimateHomography
    rw [if_neg hdet]
  · simp only [applyHomography, solvedHomography, mul_one, mul_zero,
      add_zero, zero_add, one_mul, zero_mul]
    rw [if_neg (by norm_num)]
    simp only [Option.some.injEq, Pt.ext_iff]
    constructor <;> simp
  · simp only [applyHomography, solvedHomography, mul_one, mul_zero,
      add_zero, zero_add, one_mul, zero_mul]
    rw [if_neg hw1]
    simp only [Option.some.injEq, Pt.ext_iff]
    constructor <;> (rw [div_eq_iff hw1]; ring)
  · simp only [applyHomography, solvedHomography, mul_one, mul_zero,
      add_zero, zero_add, one_mul, zero_mul]
    rw [if_neg hw3]
    simp only [Option.some.injEq, Pt.ext_iff]
    constructor <;>
      (rw [div_eq_iff hw3]
       simp only [hGnum, hHnum, hDet, cross2]
       field_simp
       ring)
  · simp only [applyHomography, solvedHomography, mul_one, mul_zero,
      add_zero, zero_add, one_mul, zero_mul]
    rw [if_neg hw2]
    simp only [Option.some.injEq, Pt.ext_iff]
    constructor <;> (rw [div_eq_iff hw2]; ring)

/-- Witness for homography_roundtrip on the concrete quadrilateral
(0,0), (2,0), (3,2), (0,1). -/
theorem homography_roundtrip_witness :
    NonDegenerate (Quad.mk (Pt.mk 0 0) (Pt.mk 2 0) (Pt.mk 3 2) (Pt.mk 0 1)) ∧
    ∃ m, estimateHomography
        (Quad.mk (Pt.mk 0 0) (Pt.mk 2 0) (Pt.mk 3 2) (Pt.mk 0 1)) = some m ∧
      applyHomography m (Pt.mk 0 0) = some (Pt.mk 0 0) ∧
      applyHomography m (Pt.mk 1 0) = some (Pt.mk 2 0) ∧
      applyHomography m (Pt.mk 1 1) = some (Pt.mk 3 2) ∧
      applyHomography m (Pt.mk 0 1) = some (Pt.mk 0 1) :=
  ⟨by norm_num [NonDegenerate, cross2],
   homography_roundtrip (Quad.mk (Pt.mk 0 0) (Pt.mk 2 0) (Pt.mk 3 2) (Pt.mk 0 1))
     (by norm_num [NonDegenerate, cross2])⟩

/-! ### Segmentation claim C1 and statelessness claim C7 -/

/-- C1: segmentByBox rejects a zero-area or out-of-image box with
InvalidBoundingBox, and on a valid box returns a result whose mask, like
the partition of every iteration, classifies every pixel strictly
outside the box as background. -/
theorem segmentByBox_outside_background {w h : Nat} (img : Image w h)
    (b : BoundingBox) (iterations : Nat) :
    (boxInvalid w h b = true →
      segmentByBox img b iterations = .error .InvalidBoundingBox) ∧
    (boxInvalid w h b = false →
      (∀ k p, inBox b p = false → segIterate img b k p = false) ∧
      ∃ r, segmentByBox img b iterations = .ok r ∧
        r.boundingBox = b ∧
        ∀ p, inBox b p = false → r.mask p = false) := by
  have hiter : ∀ k p, inBox b p = false → segIterate img b k p = false := by
    intro k
    induction k with
    | zero => intro p hp; simpa [segIterate] using hp
    | succ n _ => intro p hp; simp [segIterate, segStep, hp]
  constructor
  · intro hbad
    unfold segmentByBox
    rw [if_pos hbad]
  · intro hok
    refine ⟨hiter, ?_⟩
    unfold segmentByBox
    rw [if_neg (by simp [hok])]
    by_cases hdeg : fgCount (segIterate img b iterations) = 0
    · rw [if_pos hdeg]
      exact ⟨_, rfl, rfl, fun p hp => hp⟩
    · rw [if_neg hdeg]
      exact ⟨_, rfl, rfl, fun p hp => hiter iterations p hp⟩

/-- Witness for segmentByBox_outside_background: a zero-width box is
rejected, and a valid box on the 3 by 3 sample image yields a mask that
is background at every pixel outside the box. -/
theorem segmentByBox_outside_background_witness :
    (boxInvalid 3 3 (BoundingBox.mk 0 0 0 2) = true ∧
     segmentByBox sampleImage3 (BoundingBox.mk 0 0 0 2) 2 = .error .InvalidBoundingBox) ∧
    (boxInvalid 3 3 (BoundingBox.mk 1 1 2 2) = false ∧
     ((∀ k p, inBox (BoundingBox.mk 1 1 2 2) p = false →
        segIterate sampleImage3 (BoundingBox.mk 1 1 2 2) k p = false) ∧
      ∃ r, segmentByBox sampleImage3 (BoundingBox.mk 1 1 2 2) 2 = .ok r ∧
        r.boundingBox = BoundingBox.mk 1 1 2 2 ∧
        ∀ p, inBox (BoundingBox.mk 1 1 2 2) p = false → r.mask p = false)) :=
  ⟨⟨by decide,
    (segmentByBox_outside_background sampleImage3 (BoundingBox.mk 0 0 0 2) 2).1 (by decide)⟩,
   ⟨by decide,
    (segmentByBox_outside_background sampleImage3 (BoundingBox.mk 1 1 2 2) 2).2 (by decide)⟩⟩

/-- C7: the core is stateless between calls: every call in a trace
computes the same result it would compute against a fresh core, so a
result depends only on the own inputs of the call, and the core state
after any trace equals the state before it, so nothing created during a
call outlives it. -/
theorem core_stateless {w h : Nat} (s : CoreState)
    (rs : List (CoreRequest w h)) :
    runTrace s rs = rs.map (fun r => (handleRequest initCoreState r).1) ∧
    finalState s rs = s := by
  induction rs generalizing s with
  | nil => exact ⟨rfl, rfl⟩
  | cons r rs ih =>
    refine ⟨?_, ?_⟩
    · show (handleRequest s r).1 :: runTrace (handleRequest s r).2 rs = _
      rw [(ih (handleRequest s r).2).1]
      rfl
    · show finalState (handleRequest s r).2 rs = s
      exact (ih s).2

end RenderEase
